import Mathlib

/-!
# Verification of the password data-breach checker

A shallow embedding of the core of `src/main.rs` (a k-anonymity password
breach checker):

* `hash_password` — SHA-1 digest rendered as 40 uppercase hex characters,
  with an explicit short-circuit for the empty password;
* `parse_results` — parsing of the untrusted `SUFFIX:COUNT` range response;
* `BreachResult.new` — filtering and aggregation of candidates against the
  digest's suffix (the Rust code slices `&hash[5..]`, which panics when the
  digest is shorter than 5 bytes; that panic is modelled by `Option`, and
  the `u64` sum of the counts wraps, modelled by `% 2 ^ 64`);
* `App.update` — the message-driven state machine of the UI layer.

Machine integers are modelled as `Nat` with explicit reduction `% 2 ^ w`
where overflow matters; strings are handled at the character level (all the
protocol data is ASCII, where Rust's byte indices and character indices
coincide).
-/

set_option maxRecDepth 100000

/-! ## SHA-1 (semantics of the `sha1` crate as used by `hash_password`) -/

/-- 32-bit left rotation by `n` places, for `x < 2 ^ 32`. -/
def rotl32 (n x : Nat) : Nat :=
  ((x <<< n) ||| (x >>> (32 - n))) % 2 ^ 32

/-- Big-endian 32-bit words from a list of bytes (4 bytes per word). -/
def toWords : List Nat → List Nat
  | b0 :: b1 :: b2 :: b3 :: rest =>
      (b0 * 2 ^ 24 + b1 * 2 ^ 16 + b2 * 2 ^ 8 + b3) :: toWords rest
  | _ => []

/-- One step of the SHA-1 message-schedule recurrence, on the reversed
word list (most recent word first):
`w[i] = rotl1 (w[i-3] xor w[i-8] xor w[i-14] xor w[i-16])`. -/
def extendStep (acc : List Nat) : Nat :=
  rotl32 1 ((acc.getD 2 0) ^^^ (acc.getD 7 0) ^^^ (acc.getD 13 0) ^^^ (acc.getD 15 0))

/-- Extend the reversed word list by `n` scheduled words. -/
def extendAux : Nat → List Nat → List Nat
  | 0, acc => acc
  | n + 1, acc => extendAux n (extendStep acc :: acc)

/-- The 80-word SHA-1 message schedule from the 16 words of one block. -/
def extendTo80 (w16 : List Nat) : List Nat :=
  (extendAux 64 w16.reverse).reverse

/-- The SHA-1 round function `f` for round `i`. -/
def sha1F (i b c d : Nat) : Nat :=
  if i < 20 then (b &&& c) ||| ((b ^^^ 0xFFFFFFFF) &&& d)
  else if i < 40 then b ^^^ c ^^^ d
  else if i < 60 then (b &&& c) ||| (b &&& d) ||| (c &&& d)
  else b ^^^ c ^^^ d

/-- The SHA-1 round constant `k` for round `i`. -/
def sha1K (i : Nat) : Nat :=
  if i < 20 then 0x5A827999
  else if i < 40 then 0x6ED9EBA1
  else if i < 60 then 0x8F1BBCDC
  else 0xCA62C1D6

/-- One SHA-1 round: state `(a, b, c, d, e)` and the pair of round index and
scheduled word. -/
def sha1Round (st : Nat × Nat × Nat × Nat × Nat) (iw : Nat × Nat) :
    Nat × Nat × Nat × Nat × Nat :=
  match st, iw with
  | (a, b, c, d, e), (i, w) =>
      let t := (rotl32 5 a + sha1F i b c d + e + sha1K i + w) % 2 ^ 32
      (t, a, rotl32 30 b, c, d)

/-- The SHA-1 compression function on one 64-byte block. -/
def sha1Compress (h : Nat × Nat × Nat × Nat × Nat) (block : List Nat) :
    Nat × Nat × Nat × Nat × Nat :=
  match h with
  | (h0, h1, h2, h3, h4) =>
      match (extendTo80 (toWords block)).enum.foldl sha1Round (h0, h1, h2, h3, h4) with
      | (a, b, c, d, e) =>
          ((h0 + a) % 2 ^ 32, (h1 + b) % 2 ^ 32, (h2 + c) % 2 ^ 32,
           (h3 + d) % 2 ^ 32, (h4 + e) % 2 ^ 32)

/-- Split a byte list into 64-byte chunks (fuel-based structural recursion;
the fuel is the list length, which bounds the number of chunks). -/
def chunks64Aux : Nat → List Nat → List (List Nat)
  | 0, _ => []
  | fuel + 1, l => if l = [] then [] else l.take 64 :: chunks64Aux fuel (l.drop 64)

/-- Split a byte list into 64-byte chunks. -/
def chunks64 (l : List Nat) : List (List Nat) :=
  chunks64Aux l.length l

/-- The `k` big-endian bytes of `n` (most significant first). -/
def beBytes : Nat → Nat → List Nat
  | 0, _ => []
  | k + 1, n => (n >>> (8 * k)) % 256 :: beBytes k n

/-- SHA-1 padding: append `0x80`, zero bytes up to 56 mod 64, then the
64-bit big-endian bit length of the message. -/
def sha1Pad (msg : List Nat) : List Nat :=
  let padLen := (120 - (msg.length + 1) % 64) % 64
  msg ++ [0x80] ++ List.replicate padLen 0 ++ beBytes 8 (msg.length * 8)

/-- The SHA-1 initialization vector. -/
def sha1Init : Nat × Nat × Nat × Nat × Nat :=
  (0x67452301, 0xEFCDAB89, 0x98BADCFE, 0x10325476, 0xC3D2E1F0)

/-- The five 32-bit state words of the SHA-1 digest of a byte message. -/
def sha1Words (msg : List Nat) : Nat × Nat × Nat × Nat × Nat :=
  (chunks64 (sha1Pad msg)).foldl sha1Compress sha1Init

/-- The 20 bytes of the SHA-1 digest of a byte message. -/
def sha1Bytes (msg : List Nat) : List Nat :=
  let h := sha1Words msg
  beBytes 4 h.1 ++ beBytes 4 h.2.1 ++ beBytes 4 h.2.2.1 ++
    beBytes 4 h.2.2.2.1 ++ beBytes 4 h.2.2.2.2

/-- The uppercase hexadecimal digit for `n < 16`. -/
def hexDigit (n : Nat) : Char :=
  if n < 10 then Char.ofNat (48 + n) else Char.ofNat (55 + n)

/-- Uppercase hexadecimal rendering of a byte list, two digits per byte
(the semantics of `format!("{:X}", hash)` on the 20-byte digest). -/
def hexOfBytes : List Nat → List Char
  | [] => []
  | b :: rest => hexDigit (b / 16) :: hexDigit (b % 16) :: hexOfBytes rest

/-- UTF-8 encoding of a single character's code point. -/
def utf8EncodeCharNat (n : Nat) : List Nat :=
  if n < 0x80 then [n]
  else if n < 0x800 then [0xC0 + n / 64, 0x80 + n % 64]
  else if n < 0x10000 then [0xE0 + n / 4096, 0x80 + n / 64 % 64, 0x80 + n % 64]
  else [0xF0 + n / 262144, 0x80 + n / 4096 % 64, 0x80 + n / 64 % 64, 0x80 + n % 64]

/-- The UTF-8 bytes of a string (Rust's `pass.as_bytes()`). -/
def strBytes (s : String) : List Nat :=
  (s.data.map (fun c => utf8EncodeCharNat c.toNat)).flatten

/-- `hash_password` from `src/main.rs`: the empty password short-circuits to
the empty string; otherwise the SHA-1 digest of the UTF-8 bytes, rendered as
40 uppercase hexadecimal characters. -/
def hash_password (pass : String) : String :=
  if pass = "" then ""
  else ⟨hexOfBytes (sha1Bytes (strBytes pass))⟩

/-! ## Range response parsing and breach matching -/

/-- The exposure summary computed by the matcher (`sites: usize`,
`ocurances: u64` in the Rust source, both modelled as `Nat`). -/
structure BreachResult where
  sites : Nat
  ocurances : Nat
deriving DecidableEq, Repr

/-- Strip one trailing carriage return. Rust's `str::lines` applies this
only to segments from which a terminating newline was just stripped, so a
`\r` counts as part of a line ending only when it immediately precedes a
`\n`. -/
def stripCR (cs : List Char) : List Char :=
  match cs.reverse with
  | '\r' :: rest => rest.reverse
  | _ => cs

/-- Split a character list on newline separators (a trailing separator
yields a trailing empty segment, as in `String.splitOn`; the result is
never empty). -/
def splitNl : List Char → List (List Char)
  | [] => [[]]
  | c :: rest =>
      if c = '\n' then [] :: splitNl rest
      else
        match splitNl rest with
        | l :: ls => (c :: l) :: ls
        | [] => [[c]]

/-- Rust's `str::lines`: every segment terminated by a `\n` loses that
newline and then one trailing `\r` (only `\r\n`, not a bare `\r`, is a line
ending); a final unterminated segment is kept verbatim, except that a final
empty segment — the string was empty or ended with `\n` — produces no
line. -/
def rustLines (s : String) : List String :=
  match (splitNl s.data).reverse with
  | last :: restRev =>
      (restRev.reverse.map fun cs => (⟨stripCR cs⟩ : String)) ++
        (if last = [] then [] else [⟨last⟩])
  | [] => []

/-- Split a character list at the first occurrence of `:`; `none` when no
colon occurs (Rust's `str::split_once(':')`). -/
def splitAtColon : List Char → Option (List Char × List Char)
  | [] => none
  | c :: rest =>
      if c = ':' then some ([], rest)
      else (splitAtColon rest).map (fun p => (c :: p.1, p.2))

/-- Rust's `line.split_once(':')`. -/
def split_once_colon (line : String) : Option (String × String) :=
  (splitAtColon line.data).map (fun p => (⟨p.1⟩, ⟨p.2⟩))

/-- Accumulate base-10 digits; `none` on the first non-digit character. -/
def digitsToNatAux : List Char → Nat → Option Nat
  | [], acc => some acc
  | c :: rest, acc =>
      if c.isDigit then digitsToNatAux rest (acc * 10 + (c.toNat - 48))
      else none

/-- Rust's `u64::from_str_radix(s, 10)`: an optional leading `+` (a leading
`-` is an invalid digit for an unsigned type), then at least one base-10
digit; the value must fit in a `u64`, otherwise the checked accumulation
overflows and the parse fails. -/
def u64_from_str_radix_10 (s : String) : Option Nat :=
  let ds := match s.data with
    | '+' :: rest => rest
    | l => l
  if ds = [] then none
  else (digitsToNatAux ds 0).bind fun v =>
    if v < 2 ^ 64 then some v else none

/-- Parse one line of the range response into a candidate, `none` when the
line has no colon or its count does not parse as a `u64`. -/
def parseLine (line : String) : Option (String × Nat) :=
  (split_once_colon line).bind fun p =>
    (u64_from_str_radix_10 p.2).map fun n => (p.1, n)

/-- `parse_results` from `src/main.rs`: iterate over the lines, split each at
its first colon (dropping lines without one), parse the count as a `u64`
(dropping lines where that fails). -/
def parse_results (input : String) : List (String × Nat) :=
  (rustLines input).filterMap parseLine

/-- Rust's `str::is_char_boundary` at byte index `i`, computed over the
character list via UTF-8 encoded lengths: true at 0 and at the total byte
length, false past the end of the string or inside a character's
encoding. -/
def isCharBoundaryAux : List Char → Nat → Bool
  | _, 0 => true
  | [], _ + 1 => false
  | c :: rest, i + 1 =>
      if (utf8EncodeCharNat c.toNat).length ≤ i + 1 then
        isCharBoundaryAux rest (i + 1 - (utf8EncodeCharNat c.toNat).length)
      else false

/-- Rust's `hash.is_char_boundary(i)`; the slice `&hash[i..]` panics
exactly when this is false. -/
def is_char_boundary (s : String) (i : Nat) : Bool :=
  isCharBoundaryAux s.data i

/-- The aggregation core of `BreachResult::new`: filter the candidates whose
suffix text equals the digest with its first 5 bytes removed (`&str`
equality is byte equality, so the comparison is on UTF-8 bytes), count
them, and sum their counts as a `u64` (wrapping, hence `% 2 ^ 64`; a debug
build would panic on overflow instead). -/
def breachOfCandidates (cands : List (String × Nat)) (hash : String) : BreachResult :=
  let entries := cands.filter fun p => strBytes p.1 = (strBytes hash).drop 5
  { sites := entries.length, ocurances := (entries.map (·.2)).sum % 2 ^ 64 }

/-- `BreachResult::new` from `src/main.rs`. The Rust code slices
`&hash[5..]` by bytes, which panics unless byte index 5 is a character
boundary of the digest (in particular it panics for every digest shorter
than 5 bytes); the panic is modelled by `none`. -/
def BreachResult.new (input : String) (hash : String) : Option BreachResult :=
  if is_char_boundary hash 5 then some (breachOfCandidates (parse_results input) hash)
  else none

/-- The range key sliced from the digest in `search` (`&hash[..5]` in the
URL); the Rust slice panics when the digest is shorter than 5 bytes,
modelled by `none`. This is a character-level view of the byte slice; the
two agree on ASCII strings, and the theorems below instantiate it only at
outputs of `hash_password`, which are ASCII (empty or uppercase hex). -/
def searchRangeKey (hash : String) : Option String :=
  if 5 ≤ hash.data.length then some ⟨hash.data.take 5⟩ else none

/-! ## The UI state machine (`App::update` from `src/main.rs`) -/

/-- The lookup lifecycle (`SearchResult` in the Rust source; `NotSubmitted`
is the `#[default]` variant). -/
inductive SearchResult where
  | Breaches (b : BreachResult)
  | Errored (error : String)
  | NotSubmitted
  | Searching
deriving DecidableEq, Repr

/-- The messages processed by `App::update` (`Result<BreachResult, String>`
is modelled by `Except String BreachResult`). -/
inductive Message where
  | Input (s : String)
  | Submit
  | BreachResult (r : Except String BreachResult)
  | ShowPassword (b : Bool)

/-- The `iced::Task` returned by `App::update`, reduced to its observable
content: either no task, or the asynchronous `search` future applied to a
digest. -/
inductive Cmd where
  | none
  | searchTask (hash : String)
deriving DecidableEq, Repr

/-- The application state (`App` in the Rust source). -/
structure App where
  password : String
  current_hash : String
  «show» : Bool
  state : SearchResult

/-- The `#[derive(Default)]` initial state: empty strings, `show = false`,
`state = NotSubmitted`. -/
def App.default : App :=
  { password := "", current_hash := "", «show» := false,
    state := SearchResult.NotSubmitted }

/-- `App::update` from `src/main.rs`, returning the new state and the task. -/
def App.update (a : App) (message : Message) : App × Cmd :=
  match message with
  | Message.Input input =>
      ({ a with password := input, current_hash := hash_password input,
                state := SearchResult.NotSubmitted }, Cmd.none)
  | Message.Submit =>
      ({ a with state := SearchResult.Searching },
       Cmd.searchTask (hash_password a.password))
  | Message.BreachResult (Except.ok breach) =>
      ({ a with state := SearchResult.Breaches breach }, Cmd.none)
  | Message.BreachResult (Except.error error) =>
      ({ a with state := SearchResult.Errored error }, Cmd.none)
  | Message.ShowPassword s =>
      ({ a with «show» := s }, Cmd.none)

/-- Run a sequence of messages through `App::update`, keeping the state. -/
def App.updates (a : App) : List Message → App
  | [] => a
  | m :: ms => App.updates (a.update m).1 ms

/-! ## Helper lemmas -/

/-- A character of an uppercase hexadecimal rendering: a decimal digit or
one of `A`–`F`. -/
def isUpperHexDigit (c : Char) : Bool :=
  (48 ≤ c.toNat && c.toNat ≤ 57) || (65 ≤ c.toNat && c.toNat ≤ 70)

lemma beBytes_length (k n : Nat) : (beBytes k n).length = k := by
  induction k generalizing n with
  | zero => rfl
  | succ k ih => simp [beBytes, ih]

lemma beBytes_mem_lt (k n b : Nat) (hb : b ∈ beBytes k n) : b < 256 := by
  induction k generalizing n with
  | zero => simp [beBytes] at hb
  | succ k ih =>
      simp only [beBytes, List.mem_cons] at hb
      rcases hb with h | h
      · subst h; exact Nat.mod_lt _ (by norm_num)
      · exact ih n h

lemma hexOfBytes_length (l : List Nat) : (hexOfBytes l).length = 2 * l.length := by
  induction l with
  | nil => rfl
  | cons b rest ih => simp [hexOfBytes, ih]; omega

lemma hexDigit_isUpperHexDigit : ∀ n < 16, isUpperHexDigit (hexDigit n) = true := by decide

lemma hexOfBytes_isUpperHexDigit (l : List Nat) (hl : ∀ b ∈ l, b < 256) :
    ∀ c ∈ hexOfBytes l, isUpperHexDigit c = true := by
  induction l with
  | nil => intro c hc; simp [hexOfBytes] at hc
  | cons b rest ih =>
      intro c hc
      have hb : b < 256 := hl b (by simp)
      simp only [hexOfBytes, List.mem_cons] at hc
      rcases hc with h | h | h
      · subst h; exact hexDigit_isUpperHexDigit _ (by omega)
      · subst h; exact hexDigit_isUpperHexDigit _ (Nat.mod_lt _ (by norm_num))
      · exact ih (fun x hx => hl x (by simp [hx])) c h

lemma sha1Bytes_length (msg : List Nat) : (sha1Bytes msg).length = 20 := by
  simp [sha1Bytes, beBytes_length]

lemma sha1Bytes_mem_lt (msg : List Nat) : ∀ b ∈ sha1Bytes msg, b < 256 := by
  intro b hb
  simp only [sha1Bytes, List.mem_append] at hb
  rcases hb with (((h | h) | h) | h) | h <;> exact beBytes_mem_lt _ _ _ h

lemma hash_password_empty : hash_password "" = "" := by decide

lemma hash_password_data (p : String) (h : p ≠ "") :
    (hash_password p).data = hexOfBytes (sha1Bytes (strBytes p)) := by
  simp [hash_password, h]

lemma hash_password_data_length (p : String) (h : p ≠ "") :
    (hash_password p).data.length = 40 := by
  rw [hash_password_data p h, hexOfBytes_length, sha1Bytes_length]

lemma hash_password_upperHex (p : String) (h : p ≠ "") :
    ∀ c ∈ (hash_password p).data, isUpperHexDigit c = true := by
  rw [hash_password_data p h]
  exact hexOfBytes_isUpperHexDigit _ (sha1Bytes_mem_lt _)

lemma string_mk_data : ∀ s : String, (⟨s.data⟩ : String) = s
  | ⟨_⟩ => rfl

lemma splitAtColon_eq_none (cs : List Char) (h : ':' ∉ cs) :
    splitAtColon cs = none := by
  induction cs with
  | nil => rfl
  | cons c rest ih =>
      have hc : c ≠ ':' := by intro hc; exact h (by simp [hc])
      have hr : ':' ∉ rest := fun hr => h (by simp [hr])
      simp [splitAtColon, hc, ih hr]

lemma splitAtColon_append (pre post : List Char) (h : ':' ∉ pre) :
    splitAtColon (pre ++ ':' :: post) = some (pre, post) := by
  induction pre with
  | nil => simp [splitAtColon]
  | cons c rest ih =>
      have hc : c ≠ ':' := by intro hc; exact h (by simp [hc])
      have hr : ':' ∉ rest := fun hr => h (by simp [hr])
      simp [splitAtColon, hc, ih hr]

lemma ascii_isCharBoundaryAux (cs : List Char) :
    ∀ i, (∀ c ∈ cs, c.toNat < 128) → i ≤ cs.length →
      isCharBoundaryAux cs i = true := by
  induction cs with
  | nil =>
      intro i _ hi
      have hz : i = 0 := Nat.le_zero.mp hi
      subst hz
      rfl
  | cons c rest ih =>
      intro i hA hi
      cases i with
      | zero => rfl
      | succ j =>
          have hc : c.toNat < 128 := hA c (by simp)
          have hk : (utf8EncodeCharNat c.toNat).length = 1 := by
            simp [utf8EncodeCharNat, hc]
          have h1 : (1 : Nat) ≤ j + 1 := Nat.succ_le_succ (Nat.zero_le j)
          simp only [isCharBoundaryAux, hk, if_pos h1, Nat.add_sub_cancel]
          exact ih j (fun x hx => hA x (List.mem_cons_of_mem c hx))
            (Nat.le_of_succ_le_succ hi)

/-- Any string of at least 5 ASCII characters has a character boundary at
byte index 5 (ASCII characters encode to one byte each). -/
lemma ascii_is_char_boundary_5 (s : String)
    (hA : ∀ c ∈ s.data, c.toNat < 128) (h5 : 5 ≤ s.length) :
    is_char_boundary s 5 = true :=
  ascii_isCharBoundaryAux s.data 5 hA h5

lemma update_preserves_hash (a : App) (m : Message)
    (h : a.current_hash = hash_password a.password) :
    (a.update m).1.current_hash = hash_password (a.update m).1.password := by
  cases m with
  | Input s => simp [App.update]
  | Submit => simpa [App.update] using h
  | BreachResult r => cases r <;> simpa [App.update] using h
  | ShowPassword b => simpa [App.update] using h

lemma updates_preserves_hash (ms : List Message) :
    ∀ a : App, a.current_hash = hash_password a.password →
      (a.updates ms).current_hash = hash_password (a.updates ms).password := by
  induction ms with
  | nil => intro a h; exact h
  | cons m ms ih => intro a h; exact ih _ (update_preserves_hash a m h)

/-! ## The claims -/

/-- C1: `hash_password` is deterministic (equal inputs give equal outputs);
for every non-empty input it returns a string of exactly 40 characters,
each an uppercase hexadecimal digit; and for the empty input it returns the
empty string without hashing. -/
theorem c1_hash_password_deterministic_hex40 (p : String) (hne : p ≠ "") :
    hash_password "" = "" ∧
    (hash_password p).length = 40 ∧
    (∀ c ∈ (hash_password p).data, isUpperHexDigit c = true) ∧
    (∀ q : String, p = q → hash_password p = hash_password q) :=
  ⟨hash_password_empty,
   show (hash_password p).data.length = 40 from hash_password_data_length p hne,
   hash_password_upperHex p hne,
   fun _ hq => congrArg hash_password hq⟩

theorem c1_hash_password_deterministic_hex40_witness :
    ("password" : String) ≠ "" ∧ (hash_password "password").length = 40 :=
  ⟨by decide, (c1_hash_password_deterministic_hex40 "password" (by decide)).2.1⟩

/-- C2 as stated is false: `ocurances` is a `u64` sum, which wraps modulo
`2 ^ 64`. Two matching candidates with count `u64::MAX` give
`ocurances = 2 ^ 64 - 2`, not the arithmetic sum `2 * u64::MAX`. -/
theorem c2_counterexample :
    BreachResult.new
        "SUF:18446744073709551615\nSUF:18446744073709551615" "00000SUF" =
      some { sites := 2, ocurances := 18446744073709551614 } ∧
    parse_results "SUF:18446744073709551615\nSUF:18446744073709551615" =
      [("SUF", 18446744073709551615), ("SUF", 18446744073709551615)] ∧
    (18446744073709551614 : Nat) ≠ 18446744073709551615 + 18446744073709551615 :=
  ⟨by decide, by decide, by decide⟩

/-- C2 (amended): for every response text and every digest for which byte
index 5 is a character boundary — the exact condition under which the
program's `&hash[5..]` does not panic; in particular any digest of at
least 5 ASCII characters — `BreachResult::new` filters the parsed
candidates to those whose suffix text equals, byte for byte, the digest
with its first 5 bytes removed, sets `sites` to the number of such
candidates and `ocurances` to the sum of their counts reduced modulo
`2 ^ 64` (`u64` wrapping); when no candidate matches, the result is
`sites == 0` and `ocurances == 0`. -/
theorem c2_breach_new_aggregation (input hash : String)
    (h5 : is_char_boundary hash 5 = true) :
    ∃ r, BreachResult.new input hash = some r ∧
      r.sites = ((parse_results input).filter fun p =>
        strBytes p.1 = (strBytes hash).drop 5).length ∧
      r.ocurances = (((parse_results input).filter fun p =>
        strBytes p.1 = (strBytes hash).drop 5).map (·.2)).sum % 2 ^ 64 ∧
      (((parse_results input).filter fun p =>
        strBytes p.1 = (strBytes hash).drop 5) = [] →
        r.sites = 0 ∧ r.ocurances = 0) := by
  refine ⟨breachOfCandidates (parse_results input) hash,
    by simp [BreachResult.new, h5], rfl, rfl, ?_⟩
  intro hemp
  simp [breachOfCandidates, hemp]

theorem c2_breach_new_aggregation_witness :
    ∃ r, BreachResult.new "ABC:2\nDEF:3\nABC:4" "00000ABC" = some r ∧
      r.sites = ((parse_results "ABC:2\nDEF:3\nABC:4").filter fun p =>
        strBytes p.1 = (strBytes "00000ABC").drop 5).length ∧
      r.ocurances = (((parse_results "ABC:2\nDEF:3\nABC:4").filter fun p =>
        strBytes p.1 = (strBytes "00000ABC").drop 5).map (·.2)).sum % 2 ^ 64 ∧
      (((parse_results "ABC:2\nDEF:3\nABC:4").filter fun p =>
        strBytes p.1 = (strBytes "00000ABC").drop 5) = [] →
        r.sites = 0 ∧ r.ocurances = 0) :=
  c2_breach_new_aggregation "ABC:2\nDEF:3\nABC:4" "00000ABC" (by decide)

/-- C3: `parse_results` never fails (it is a total function by
construction); each line is split at its first colon; lines containing no
colon are dropped; lines whose count part does not parse as a non-negative
base-10 `u64` are dropped; the emitted candidates appear in the same
relative order as their input lines and duplicates are preserved (the
parser is a `filterMap` over the lines, and is a homomorphism for
concatenation of line lists); a line with a 35-character suffix and count
text `5` yields exactly one candidate with count 5. A bare trailing `\r`
on an unterminated final line is kept by `str::lines` (only `\r\n` is a
line ending), so the count text `5\r` fails the `u64` parse and the line
is dropped, while the same line terminated by `\r\n` is parsed. -/
theorem c3_parse_results_spec :
    (∀ input : String, parse_results input = (rustLines input).filterMap parseLine) ∧
    (∀ line : String, ':' ∉ line.data → parseLine line = none) ∧
    (∀ pre post : String, ':' ∉ pre.data →
      parseLine ⟨pre.data ++ ':' :: post.data⟩ =
        (u64_from_str_radix_10 post).map fun n => (pre, n)) ∧
    (∀ l1 l2 : List String,
      (l1 ++ l2).filterMap parseLine =
        l1.filterMap parseLine ++ l2.filterMap parseLine) ∧
    parse_results "ABCDEF0123ABCDEF0123ABCDEF0123ABCDE:5" =
      [("ABCDEF0123ABCDEF0123ABCDEF0123ABCDE", 5)] ∧
    ("ABCDEF0123ABCDEF0123ABCDEF0123ABCDE" : String).length = 35 ∧
    parse_results "AB:1\nnocolon\nAB:1\nCD:x" = [("AB", 1), ("AB", 1)] ∧
    parse_results "AB:5\r" = [] ∧
    parse_results "AB:5\r\n" = [("AB", 5)] := by
  refine ⟨fun _ => rfl, ?_, ?_, fun l1 l2 => by simp, by decide, by decide, by decide,
    by decide, by decide⟩
  · intro line h
    simp [parseLine, split_once_colon, splitAtColon_eq_none line.data h]
  · intro pre post h
    simp [parseLine, split_once_colon, splitAtColon_append pre.data post.data h,
      string_mk_data]

theorem c3_parse_results_spec_witness :
    parseLine "nocolon" = none ∧
    parseLine ⟨("AB" : String).data ++ ':' :: ("7" : String).data⟩ =
      (u64_from_str_radix_10 "7").map fun n => (("AB" : String), n) :=
  ⟨c3_parse_results_spec.2.1 "nocolon" (by decide),
   c3_parse_results_spec.2.2.1 "AB" "7" (by decide)⟩

/-- C4 as stated is false: with a digest shorter than 5 bytes (such as the
empty digest) the slice `&hash[5..]` in `BreachResult::new` is out of
bounds and the code panics, modelled here by `none`. -/
theorem c4_counterexample : BreachResult.new "1E4C9:5" "" = none := by decide

/-- C4 (amended): `BreachResult::new` is total — never fails, never panics,
no side effects — for every response text and every digest for which byte
index 5 is a character boundary, the exact panic-freedom condition of the
slice `&hash[5..]`; in particular for every digest of at least 5 ASCII
characters, such as every digest `hash_password` produces. For other
digests (shorter than 5 bytes, or with byte 5 inside a multi-byte
character) the slice panics. -/
theorem c4_breach_new_total (input hash : String)
    (h5 : is_char_boundary hash 5 = true) :
    (BreachResult.new input hash).isSome = true ∧
    ∀ hash2 : String, (∀ c ∈ hash2.data, c.toNat < 128) → 5 ≤ hash2.length →
      (BreachResult.new input hash2).isSome = true := by
  refine ⟨by simp [BreachResult.new, h5], fun hash2 hA h5' => ?_⟩
  simp [BreachResult.new, ascii_is_char_boundary_5 hash2 hA h5']

theorem c4_breach_new_total_witness :
    (BreachResult.new "whatever" "00000").isSome = true :=
  (c4_breach_new_total "whatever" "00000" (by decide)).1

/-- C5: the matcher is order-independent — permuted candidate lists give
equal `sites` and `ocurances` — and evaluating the matcher twice on the
same input yields identical output (it is a pure function). -/
theorem c5_match_perm_invariant (hash : String) (l1 l2 : List (String × Nat))
    (h5 : 5 ≤ hash.length) (hperm : l1.Perm l2) :
    breachOfCandidates l1 hash = breachOfCandidates l2 hash ∧
    ∀ input : String, BreachResult.new input hash = BreachResult.new input hash := by
  refine ⟨?_, fun _ => rfl⟩
  have hf : (l1.filter fun p => strBytes p.1 = (strBytes hash).drop 5).Perm
      (l2.filter fun p => strBytes p.1 = (strBytes hash).drop 5) := hperm.filter _
  simp [breachOfCandidates, hf.length_eq, List.Perm.sum_eq (hf.map (·.2))]

theorem c5_match_perm_invariant_witness :
    breachOfCandidates [("A", 1), ("B", 2)] "00000" =
      breachOfCandidates [("B", 2), ("A", 1)] "00000" :=
  (c5_match_perm_invariant "00000" [("A", 1), ("B", 2)] [("B", 2), ("A", 1)]
    (by decide) (by decide)).1

/-- C6: processing `Submit` sets the state to `Searching` and returns the
asynchronous search task (so the state change is in place before the task
runs); `BreachResult(Ok(b))` sets the state to `Breaches(b)`;
`BreachResult(Err(e))` sets the state to `Errored(e)` carrying the error
message. -/
theorem c6_update_lifecycle (a : App) (b : BreachResult) (e : String) :
    ((a.update Message.Submit).1.state = SearchResult.Searching ∧
      (a.update Message.Submit).2 = Cmd.searchTask (hash_password a.password)) ∧
    (a.update (Message.BreachResult (Except.ok b))).1.state =
      SearchResult.Breaches b ∧
    (a.update (Message.BreachResult (Except.error e))).1.state =
      SearchResult.Errored e :=
  ⟨⟨rfl, rfl⟩, rfl, rfl⟩

/-- C7: processing `Input(s)` — an edit of the password text — resets the
outcome state to `NotSubmitted` in every app state, including `Breaches`
and `Errored` states, and updates the password and its digest. -/
theorem c7_input_resets_state (a : App) (s : String) :
    (a.update (Message.Input s)).1.state = SearchResult.NotSubmitted ∧
    (a.update (Message.Input s)).1.password = s ∧
    (a.update (Message.Input s)).1.current_hash = hash_password s :=
  ⟨rfl, rfl, rfl⟩

/-- C8 as stated is false: the SHA-1 digest of `"password"` is
`5BAA61E4C9B93F3F0682250B6CF8331B7EE68FD8` (ending `FD8`), not
`...FD7` as the spec writes, and a response containing the `...FD7:3730471`
line therefore matches nothing (`sites == 0`). -/
theorem c8_counterexample :
    hash_password "password" ≠ "5BAA61E4C9B93F3F0682250B6CF8331B7EE68FD7" ∧
    BreachResult.new "1E4C9B93F3F0682250B6CF8331B7EE68FD7:3730471"
        (hash_password "password") = some { sites := 0, ocurances := 0 } :=
  ⟨by decide, by decide⟩

/-- C8 (amended): `hash_password "password"` is exactly
`5BAA61E4C9B93F3F0682250B6CF8331B7EE68FD8` (40 characters, range key
`5BAA6`), and a response body containing the line
`1E4C9B93F3F0682250B6CF8331B7EE68FD8:3730471` yields `sites == 1` and
`ocurances == 3730471`. -/
theorem c8_end_to_end_password :
    hash_password "password" = "5BAA61E4C9B93F3F0682250B6CF8331B7EE68FD8" ∧
    (hash_password "password").length = 40 ∧
    searchRangeKey (hash_password "password") = some "5BAA6" ∧
    BreachResult.new
        "00112233445566778899AABBCCDDEEFF0011:12\n1E4C9B93F3F0682250B6CF8331B7EE68FD8:3730471"
        (hash_password "password") = some { sites := 1, ocurances := 3730471 } :=
  ⟨by decide, by decide, by decide, by decide⟩

/-- C9: in every app state reachable from the default initial state by any
sequence of update messages, `current_hash == hash_password(password)`. -/
theorem c9_current_hash_invariant (ms : List Message) :
    (App.default.updates ms).current_hash =
      hash_password (App.default.updates ms).password :=
  updates_preserves_hash ms App.default (by simp [App.default, hash_password_empty])

/-- C10: the async `search` slices the first 5 bytes of the digest for the
range URL; the empty password produces the empty digest, for which the
slice is out of bounds and panics (modelled by `none`), and `Submit` hands
exactly that digest to `search` — so `Submit` is panic-free only for a
non-empty password, whose digest always has 40 ≥ 5 characters. -/
theorem c10_search_digest_length (p : String) (a : App)
    (hne : p ≠ "") (hemp : a.password = "") :
    searchRangeKey (hash_password a.password) = none ∧
    (a.update Message.Submit).2 = Cmd.searchTask (hash_password a.password) ∧
    (searchRangeKey (hash_password p)).isSome = true := by
  refine ⟨?_, rfl, ?_⟩
  · rw [hemp, hash_password_empty]; decide
  · simp [searchRangeKey, hash_password_data_length p hne]

theorem c10_search_digest_length_witness :
    searchRangeKey (hash_password App.default.password) = none ∧
    (searchRangeKey (hash_password "password")).isSome = true :=
  ⟨(c10_search_digest_length "password" App.default (by decide) rfl).1,
   (c10_search_digest_length "password" App.default (by decide) rfl).2.2⟩
